import Mathlib

/-!
Verification of the cross-venue market matching pipeline of `pulsebackend`
(`src/services/matching.ts` and the match-cache layer of `src/db.ts`).

The matching pipeline is embedded shallowly:
* the keyword-based semantic-context classifier, the context-compatibility
  relation, the candidate pre-filter, and the tiered decision engine
  (`matchSingleMarket`) are translated function by function;
* JavaScript numbers are modelled by `ℚ` (all arithmetic appearing in the
  pipeline is exact on rationals), `Math.round` by `jsRound`;
* the regex-driven entity extractor (`extractEntities`, matching.ts lines
  109-129) scans text with a fixed table of regular expressions; the regex
  engine itself is host-library code, so the pipeline is parameterised by an
  arbitrary extractor `extract : String → List ExtractedEntity`, exactly as
  the extractor output feeds the rest of the pipeline;
* the external LLM classifier call (`callLLMForMatch`) is a network
  boundary returning `AIMatchResponse | null`; it is modelled as a function
  parameter `classifier`, and the decision engine additionally reports
  whether that boundary was invoked (the `Bool` component);
* JSON-parsed nested-market arrays (`markets_json`) are modelled as already
  parsed `Option (List NestedMarket)` (`null`/missing ↦ `none`);
* the SQLite table `market_matches` is modelled as a list of rows, with
  `upsertMarketMatch` / `getMarketMatch` translated statement by statement.
-/

namespace PulseBackend

/-! ## Semantic context (matching.ts lines 173-213) -/

inductive SemanticContext where
  | leadership | action | price | timing | outcome | comparison | unknown
deriving DecidableEq, Repr

/-- The keyword table `CONTEXT_KEYWORDS` (matching.ts lines 175-183). -/
def contextKeywords : SemanticContext → List String
  | .leadership => ["nominate", "nomination", "successor", "prime minister", "chief", "chair",
      "chairman", "president", "elect", "win", "governor", "senator", "mayor", "appointee"]
  | .action => ["strike", "attack", "ban", "sanction", "deport", "pardon", "invade", "war",
      "ceasefire", "shutdown", "impeach", "veto"]
  | .price => ["cost", "above", "below", "reach", "hit", "price", "rate", "gdp", "inflation", "cpi"]
  | .timing => ["before", "after", "by", "date", "deadline", "end of", "year", "month"]
  | .outcome => ["happen", "occur", "will", "resolve"]
  | .comparison => ["more", "less", "higher", "lower", "beat", "vs"]
  | .unknown => []

/-- Enumeration order of `Object.entries(CONTEXT_KEYWORDS)` with the `unknown`
entry skipped, as in the loop of `extractSemanticContext`. -/
def contextOrder : List SemanticContext :=
  [.leadership, .action, .price, .timing, .outcome, .comparison]

/-- `text.toLowerCase()`: character-wise ASCII lowercasing (the keyword
tables are ASCII). -/
def jsToLower (s : String) : String := ⟨s.data.map Char.toLower⟩

/-- `headMatches kw s` holds when `kw` is an initial segment of `s`. -/
def headMatches : List Char → List Char → Bool
  | [], _ => true
  | _ :: _, [] => false
  | c :: cs, d :: ds => c = d && headMatches cs ds

/-- `occursIn kw s`: `kw` occurs as a contiguous substring of `s`;
models JavaScript `String.prototype.includes`. -/
def occursIn (kw : List Char) : List Char → Bool
  | [] => headMatches kw []
  | d :: ds => headMatches kw (d :: ds) || occursIn kw ds

/-- Number of keywords of context `ctx` occurring as substrings of the
lowercased text: the `keywords.filter((kw) => lower.includes(kw)).length`
of matching.ts line 192 (`lower` is passed already lowercased). -/
def ctxScore (lower : String) (ctx : SemanticContext) : Nat :=
  ((contextKeywords ctx).filter (fun kw => occursIn kw.data lower.data)).length

/-- The accumulator loop of `extractSemanticContext` (matching.ts lines
190-197): a running `(best, bestCount)` pair updated only on a strictly
larger count. -/
def pickBest (lower : String) : List SemanticContext → SemanticContext × Nat → SemanticContext × Nat
  | [], acc => acc
  | ctx :: rest, (best, bestCount) =>
      if bestCount < ctxScore lower ctx then pickBest lower rest (ctx, ctxScore lower ctx)
      else pickBest lower rest (best, bestCount)

/-- `extractSemanticContext` (matching.ts lines 185-199). -/
def extractSemanticContext (text : String) : SemanticContext :=
  (pickBest (jsToLower text) contextOrder (.unknown, 0)).1

/-- The adjacency table `compatible` of `areContextsCompatible`
(matching.ts lines 204-211); `unknown` has no entry. -/
def compatTable : SemanticContext → List SemanticContext
  | .leadership => [.outcome, .timing]
  | .action => [.outcome, .timing]
  | .price => [.timing, .comparison]
  | .timing => [.leadership, .action, .price, .outcome]
  | .outcome => [.leadership, .action, .timing]
  | .comparison => [.price]
  | .unknown => []

/-- `areContextsCompatible` (matching.ts lines 201-213). -/
def areContextsCompatible (ctx1 ctx2 : SemanticContext) : Bool :=
  if ctx1 = .unknown || ctx2 = .unknown then true
  else if ctx1 = ctx2 then true
  else ((compatTable ctx1).any fun x => decide (x = ctx2)) ||
       ((compatTable ctx2).any fun x => decide (x = ctx1))

/-! ## Entity extraction interface (matching.ts lines 103-167)

`extractEntities` scans text with the fixed regex table `ENTITY_PATTERNS`
and deduplicates by normalized key.  The regex engine is host-library code,
so the pipeline below takes the extractor as a parameter. -/

structure ExtractedEntity where
  value : String
  category : String
  normalized : String
deriving DecidableEq, Repr

/-- An entity extractor: the interface of `extractEntities`. -/
abbrev Extractor := String → List ExtractedEntity

/-! ## Entity-based pre-filter (matching.ts lines 219-277) -/

/-- One nested market of a Kalshi event, as parsed from `markets_json`;
`ticker`/`status` may be absent from the JSON object. -/
structure NestedMarket where
  ticker : Option String
  status : Option String
deriving DecidableEq, Repr

/-- The `kalshi_events` row fields consumed by the matching pipeline
(db.ts `KalshiEventRow`); `markets_json` is modelled post-`JSON.parse`,
with `none` for SQL `NULL`. -/
structure KalshiEventRow where
  event_ticker : String
  title : String
  subtitle : Option String
  markets_json : Option (List NestedMarket)
deriving DecidableEq, Repr

structure PreFilterResult where
  eventTicker : String
  eventTitle : String
  subtitle : String
  entityScore : ℚ
  matchedEntities : List String
  contextCompatible : Bool
deriving DecidableEq, Repr, Inhabited

/-- First-occurrence deduplication, modelling insertion into a JavaScript
`Set` (`new Set(entities.map(e => e.normalized))`). -/
def dedupFirst : List String → List String
  | [] => []
  | x :: xs => x :: (dedupFirst xs).filter (fun y => decide ¬(y = x))

/-- The deduplicated normalized-key set of the entities extracted from a
text (`new Set(entities.map((e) => e.normalized))`). -/
def keysOf (extract : Extractor) (text : String) : List String :=
  dedupFirst ((extract text).map (·.normalized))

/-- `${event.title} ${event.subtitle || ""}` (matching.ts line 242). -/
def eventText (title : String) (subtitle : Option String) : String :=
  title ++ " " ++ (match subtitle with | some s => s | none => "")

/-- The matched-entity list of matching.ts lines 247-253: the normalized
source keys also present in the candidate normalized key set, in source
insertion order. -/
def matchedKeys (qKeys eKeys : List String) : List String :=
  qKeys.filter (fun ne => eKeys.contains ne)

/-- Dice-style overlap score of matching.ts line 257, on already
deduplicated key lists: `(matched * 2) / (|source| + |candidate|)`. -/
def diceScore (qKeys eKeys : List String) : ℚ :=
  ((matchedKeys qKeys eKeys).length * 2 : ℚ) / ((qKeys.length : ℚ) + (eKeys.length : ℚ))

/-- The per-candidate body of the `for (const event of events)` loop of
`preFilterEvents` (matching.ts lines 241-272): `none` when the candidate is
skipped or rejected, `some` with its `PreFilterResult` when it survives.
The local consts of the source (`eventEntities`, `eventNormalized`,
`matchedEntities`, `entityScore`, `eventContext`, `contextCompatible`) are
inlined. -/
def processCandidate (extract : Extractor) (questionNormalized : List String)
    (questionContext : SemanticContext) (event : KalshiEventRow) : Option PreFilterResult :=
  if (extract (eventText event.title event.subtitle)).length = 0 then none
  else if (matchedKeys questionNormalized (keysOf extract (eventText event.title event.subtitle))).length = 0 then
    none
  -- Reject if only 1 entity matches and contexts are incompatible
  else if (matchedKeys questionNormalized (keysOf extract (eventText event.title event.subtitle))).length = 1 ∧
      areContextsCompatible questionContext (extractSemanticContext (eventText event.title event.subtitle)) = false then
    none
  else some {
    eventTicker := event.event_ticker,
    eventTitle := event.title,
    subtitle := (match event.subtitle with | some s => s | none => ""),
    entityScore :=
      (((matchedKeys questionNormalized (keysOf extract (eventText event.title event.subtitle))).length * 2 : ℕ) : ℚ) /
        ((questionNormalized.length : ℚ) +
          ((keysOf extract (eventText event.title event.subtitle)).length : ℚ)),
    matchedEntities := matchedKeys questionNormalized (keysOf extract (eventText event.title event.subtitle)),
    contextCompatible := areContextsCompatible questionContext
      (extractSemanticContext (eventText event.title event.subtitle)) }

/-- Stable descending insertion by `entityScore`: an element is placed
before the first already-sorted element it is not strictly below, so equal
scores keep their original relative order, as with the stable JavaScript
`Array.prototype.sort`. -/
def insertDesc (x : PreFilterResult) : List PreFilterResult → List PreFilterResult
  | [] => [x]
  | y :: ys => if x.entityScore < y.entityScore then y :: insertDesc x ys else x :: y :: ys

/-- `results.sort((a, b) => b.entityScore - a.entityScore)`
(matching.ts line 275), as a stable descending sort. -/
def sortByScore : List PreFilterResult → List PreFilterResult
  | [] => []
  | x :: xs => insertDesc x (sortByScore xs)

/-- `preFilterEvents` (matching.ts lines 228-277); `questionNormalized` and
`questionContext` are computed once and passed to the per-candidate body. -/
def preFilterEvents (extract : Extractor) (question : String)
    (events : List KalshiEventRow) : List PreFilterResult :=
  if (extract question).length = 0 then []
  else sortByScore (events.filterMap
    (processCandidate extract (keysOf extract question) (extractSemanticContext question)))

/-! ## Main matching pipeline (matching.ts lines 283-484) -/

/-- `Math.round` on a JavaScript number: round half toward positive
infinity. -/
def jsRound (q : ℚ) : ℚ := ((⌊q + 1/2⌋ : ℤ) : ℚ)

/-- JavaScript `s || d` on a possibly absent string: the default replaces
both an absent value and the (falsy) empty string. -/
def jsOrStr (s : Option String) (d : String) : String :=
  match s with
  | none => d
  | some t => if t = "" then d else t

/-- JavaScript `s || null` on a possibly absent string: the empty string
collapses to `null`. -/
def jsOrNull (s : Option String) : Option String :=
  match s with
  | none => none
  | some t => if t = "" then none else some t

/-- The parsed LLM reply (matching.ts `AIMatchResponse`); numbers as
rationals, `matchedConcepts` possibly absent from the JSON. -/
structure AIMatchResponse where
  eventIndex : Int
  confidence : ℚ
  reasoning : String
  matchedConcepts : Option (List String)
deriving DecidableEq, Repr

/-- One `{idx, title, subtitle}` entry of the candidate list sent to the
LLM (matching.ts lines 426-430). -/
structure EventListItem where
  idx : Nat
  title : String
  subtitle : String
deriving DecidableEq, Repr

/-- `topN.map((c, idx) => ({idx, title: c.eventTitle, subtitle: c.subtitle}))`. -/
def buildEventList : Nat → List PreFilterResult → List EventListItem
  | _, [] => []
  | i, c :: cs => { idx := i, title := c.eventTitle, subtitle := c.subtitle } :: buildEventList (i + 1) cs

/-- The classifier boundary (`callLLMForMatch`): `none` models every soft
failure (no key, transport error, non-2xx, empty content, parse failure). -/
abbrev Classifier := List EventListItem → Option AIMatchResponse

inductive MatchMethod where
  | entity | ai | none
deriving DecidableEq, Repr

structure MatchResult where
  kalshiEventTicker : Option String
  kalshiMarketTicker : Option String
  kalshiEventTitle : Option String
  similarity : ℚ
  confidence : ℚ
  matchMethod : MatchMethod
  matchedEntities : List String
  reasoning : Option String
deriving DecidableEq, Repr

/-- `markets.find(m => m.status === "open" || m.status === "active") || markets[0]`. -/
def chooseBestMarket (markets : List NestedMarket) : Option NestedMarket :=
  match markets.find? (fun m => m.status == some "open" || m.status == some "active") with
  | some m => some m
  | none => markets.head?

/-- The nested-market ticker persisted for a matched event row:
`markets = eventRow?.markets_json ? JSON.parse(...) : []` followed by
`bestMarket?.ticker || null` (matching.ts lines 409-414 and twins). -/
def bestTickerOf (row? : Option KalshiEventRow) : Option String :=
  let markets : List NestedMarket :=
    match row? with
    | some row => (match row.markets_json with | some ms => ms | none => [])
    | none => []
  match chooseBestMarket markets with
  | some m => jsOrNull m.ticker
  | none => none

/-- `matchSingleMarket` (matching.ts lines 382-484), with the classifier
boundary passed as a parameter.  The second component records whether the
external classifier was invoked (`true` exactly when control reaches the
`callLLMForMatch` await of line 432). -/
def matchSingleMarketT (extract : Extractor) (classifier : Classifier)
    (question : String) (kalshiEvents : List KalshiEventRow) : MatchResult × Bool :=
  let candidates := preFilterEvents extract question kalshiEvents
  match candidates with
  | [] =>
      ({ kalshiEventTicker := none, kalshiMarketTicker := none, kalshiEventTitle := none,
         similarity := 0, confidence := 0, matchMethod := .none, matchedEntities := [],
         reasoning := some "No entity overlap found" }, false)
  | topCandidate :: rest =>
      if 3 ≤ topCandidate.matchedEntities.length ∧ topCandidate.contextCompatible = true then
        let row? := kalshiEvents.find? (fun e => e.event_ticker == topCandidate.eventTicker)
        ({ kalshiEventTicker := some topCandidate.eventTicker,
           kalshiMarketTicker := bestTickerOf row?,
           kalshiEventTitle := some topCandidate.eventTitle,
           similarity := min (topCandidate.entityScore * (3/2)) (19/20),
           confidence := jsRound (min (topCandidate.entityScore * 150) 95),
           matchMethod := .entity,
           matchedEntities := topCandidate.matchedEntities,
           reasoning := some ("Strong entity match: " ++ String.intercalate ", " topCandidate.matchedEntities) }, false)
      else
        let topN := (topCandidate :: rest).take 30
        let eventList := buildEventList 0 topN
        let aiResult := classifier eventList
        let failed : Bool :=
          match aiResult with
          | none => true
          | some r => decide (r.eventIndex < 0) || decide (r.confidence < 25)
        if failed then
          if (2/5 : ℚ) ≤ topCandidate.entityScore ∧ topCandidate.contextCompatible = true then
            let row? := kalshiEvents.find? (fun e => e.event_ticker == topCandidate.eventTicker)
            ({ kalshiEventTicker := some topCandidate.eventTicker,
               kalshiMarketTicker := bestTickerOf row?,
               kalshiEventTitle := some topCandidate.eventTitle,
               similarity := topCandidate.entityScore,
               confidence := jsRound (topCandidate.entityScore * 100),
               matchMethod := .entity,
               matchedEntities := topCandidate.matchedEntities,
               reasoning := some "Entity-based fallback (AI unavailable or low confidence)" }, true)
          else
            ({ kalshiEventTicker := none, kalshiMarketTicker := none, kalshiEventTitle := none,
               similarity := 0, confidence := 0, matchMethod := .none, matchedEntities := [],
               reasoning := some (jsOrStr (aiResult.map (·.reasoning)) "No confident match found") }, true)
        else
          match aiResult with
          | none =>
              -- unreachable: `failed` is `true` when `aiResult` is `none`
              ({ kalshiEventTicker := none, kalshiMarketTicker := none, kalshiEventTitle := none,
                 similarity := 0, confidence := 0, matchMethod := .none, matchedEntities := [],
                 reasoning := some "No confident match found" }, true)
          | some r =>
              match topN[r.eventIndex.toNat]? with
              | none =>
                  ({ kalshiEventTicker := none, kalshiMarketTicker := none, kalshiEventTitle := none,
                     similarity := 0, confidence := 0, matchMethod := .none, matchedEntities := [],
                     reasoning := some "AI returned out-of-bounds index" }, true)
              | some matchedCandidate =>
                  let row? := kalshiEvents.find? (fun e => e.event_ticker == matchedCandidate.eventTicker)
                  ({ kalshiEventTicker := some matchedCandidate.eventTicker,
                     kalshiMarketTicker := bestTickerOf row?,
                     kalshiEventTitle := some matchedCandidate.eventTitle,
                     similarity := r.confidence / 100,
                     confidence := r.confidence,
                     matchMethod := .ai,
                     matchedEntities := (match r.matchedConcepts with
                       | some cs => cs
                       | none => matchedCandidate.matchedEntities),
                     reasoning := some r.reasoning }, true)

/-- The `MatchResult` returned by `matchSingleMarket`. -/
def matchSingleMarket (extract : Extractor) (classifier : Classifier)
    (question : String) (kalshiEvents : List KalshiEventRow) : MatchResult :=
  (matchSingleMarketT extract classifier question kalshiEvents).1

/-! ## Match cache (db.ts, `market_matches` CRUD)

The SQLite table is modelled as a list of rows; time as milliseconds since
the epoch (`Date.now()`). `matched_entities` is stored through
`JSON.stringify` and read back verbatim, so it is modelled as the list
itself. -/

structure MarketMatchRow where
  polymarket_id : String
  polymarket_question : String
  kalshi_event_ticker : Option String
  kalshi_market_ticker : Option String
  kalshi_event_title : Option String
  similarity : ℚ
  confidence : ℚ
  match_method : String
  matched_entities : List String
  reasoning : Option String
  matched_at : ℕ
  expires_at : ℕ
deriving DecidableEq, Repr

/-- The argument record of `upsertMarketMatch` (db.ts); `ttlHours` is an
optional field. -/
structure StoredMatch where
  polymarketId : String
  polymarketQuestion : String
  kalshiEventTicker : Option String
  kalshiMarketTicker : Option String
  kalshiEventTitle : Option String
  similarity : ℚ
  confidence : ℚ
  matchMethod : String
  matchedEntities : List String
  reasoning : Option String
  ttlHours : Option ℕ
deriving DecidableEq, Repr

/-- `match.ttlHours || 24`: an absent — or zero, hence falsy — TTL becomes
24 hours. -/
def effectiveTtl (t : Option ℕ) : ℕ :=
  match t with
  | none => 24
  | some n => if n = 0 then 24 else n

/-- `upsertMarketMatch` (db.ts): `DELETE FROM market_matches WHERE
polymarket_id = ?` followed by a single `INSERT` with
`expires_at = now + ttlHours * 3600_000` and `matched_at = now`. -/
def upsertMarketMatch (db : List MarketMatchRow) (m : StoredMatch) (now : ℕ) : List MarketMatchRow :=
  (db.filter (fun r => decide ¬(r.polymarket_id = m.polymarketId))) ++
    [{ polymarket_id := m.polymarketId,
       polymarket_question := m.polymarketQuestion,
       kalshi_event_ticker := m.kalshiEventTicker,
       kalshi_market_ticker := m.kalshiMarketTicker,
       kalshi_event_title := m.kalshiEventTitle,
       similarity := m.similarity,
       confidence := m.confidence,
       match_method := m.matchMethod,
       matched_entities := m.matchedEntities,
       reasoning := m.reasoning,
       matched_at := now,
       expires_at := now + effectiveTtl m.ttlHours * 3600000 }]

/-- Descending insertion by `matched_at`, modelling `ORDER BY matched_at
DESC`. -/
def insertByMatchedAt (x : MarketMatchRow) : List MarketMatchRow → List MarketMatchRow
  | [] => [x]
  | y :: ys => if x.matched_at < y.matched_at then y :: insertByMatchedAt x ys else x :: y :: ys

def sortByMatchedAt : List MarketMatchRow → List MarketMatchRow
  | [] => []
  | x :: xs => insertByMatchedAt x (sortByMatchedAt xs)

/-- `getMarketMatch` (db.ts): `SELECT * FROM market_matches WHERE
polymarket_id = ? AND expires_at > datetime(now) ORDER BY matched_at DESC
LIMIT 1`, with a missing row surfaced as `null`. -/
def getMarketMatch (db : List MarketMatchRow) (polymarketId : String) (now : ℕ) : Option MarketMatchRow :=
  (sortByMatchedAt (db.filter (fun r =>
    r.polymarket_id == polymarketId && decide (now < r.expires_at)))).head?

/-- `candidates[0]` (matching.ts line 406), total via the default value. -/
def topCandidate (extract : Extractor) (question : String)
    (events : List KalshiEventRow) : PreFilterResult :=
  (preFilterEvents extract question events).headI


/-! ## Concrete gadgets used by witnesses -/

/-- An extractor recognising three fixed entities, in the question "q" and
in the candidate text "T " (the `eventText` of the event below). -/
def wExtract3 : Extractor := fun t =>
  if t = "q" ∨ t = "T " then
    [{ value := "a", category := "people", normalized := "a" },
     { value := "b", category := "people", normalized := "b" },
     { value := "c", category := "people", normalized := "c" }]
  else []

/-- An extractor recognising a single fixed entity in "q" and "T ". -/
def wExtract1 : Extractor := fun t =>
  if t = "q" ∨ t = "T " then [{ value := "a", category := "people", normalized := "a" }]
  else []

/-- An extractor recognising no entity at all. -/
def wExtract0 : Extractor := fun _ => []

/-- A one-event candidate pool. -/
def wEvents : List KalshiEventRow :=
  [{ event_ticker := "E", title := "T", subtitle := none, markets_json := none }]

/-- A classifier stub modelling a soft failure. -/
def wClassifierNone : Classifier := fun _ => none

/-- A classifier stub reporting index 5 with confidence 30. -/
def wClassifierOOB : Classifier := fun _ =>
  some { eventIndex := 5, confidence := 30, reasoning := "r", matchedConcepts := none }


/-- A classifier stub reporting index 0 with out-of-contract confidence 150. -/
def wClassifierHigh : Classifier := fun _ =>
  some { eventIndex := 0, confidence := 150, reasoning := "strong", matchedConcepts := some ["a"] }


/-- The stored match used by the C9 witness. -/
def wStored : StoredMatch :=
  { polymarketId := "P", polymarketQuestion := "Q",
    kalshiEventTicker := none, kalshiMarketTicker := none, kalshiEventTitle := none,
    similarity := 0, confidence := 0, matchMethod := "none", matchedEntities := [],
    reasoning := none, ttlHours := none }


/-! ## Supporting lemmas: the context-classifier loop -/

/-- Maximum of a list of naturals (0 on the empty list). -/
def listMax : List ℕ → ℕ
  | [] => 0
  | x :: xs => max x (listMax xs)

/-- The highest keyword count attained by any non-`unknown` context on a
text. -/
def maxCtxScore (text : String) : ℕ :=
  listMax (contextOrder.map (ctxScore (jsToLower text)))

lemma listMax_attained : ∀ (l : List ℕ), l ≠ [] → listMax l ∈ l := by
  intro l h
  induction l with
  | nil => exact absurd rfl h
  | cons x xs ih =>
    rcases xs with _ | ⟨y, ys⟩
    · simp [listMax]
    · rcases Nat.le_total (listMax (y :: ys)) x with h1 | h1
      · have hx : listMax (x :: y :: ys) = x := by rw [listMax, Nat.max_eq_left h1]
        rw [hx]
        exact List.mem_cons_self _ _
      · have hx : listMax (x :: y :: ys) = listMax (y :: ys) := by
          rw [listMax, Nat.max_eq_right h1]
        rw [hx]
        exact List.mem_cons_of_mem _ (ih (by simp))

lemma le_listMax_of_mem : ∀ {l : List ℕ} {x : ℕ}, x ∈ l → x ≤ listMax l := by
  intro l
  induction l with
  | nil => intro x hx; cases hx
  | cons y ys ih =>
    intro x hx
    rcases List.mem_cons.1 hx with rfl | hx
    · exact Nat.le_max_left _ _
    · exact le_trans (ih hx) (Nat.le_max_right _ _)

lemma pickBest_stay (lower : String) : ∀ (l : List SemanticContext) (b : SemanticContext) (n : ℕ),
    (∀ c ∈ l, ctxScore lower c ≤ n) → pickBest lower l (b, n) = (b, n) := by
  intro l
  induction l with
  | nil => intro b n _; rfl
  | cons c cs ih =>
    intro b n h
    have hc : ¬ n < ctxScore lower c := Nat.not_lt.2 (h c (List.mem_cons_self c cs))
    rw [pickBest, if_neg hc]
    exact ih b n (fun d hd => h d (List.mem_cons_of_mem c hd))

lemma pickBest_fst (lower : String) : ∀ (l : List SemanticContext) (b : SemanticContext) (n : ℕ),
    n < listMax (l.map (ctxScore lower)) →
    (pickBest lower l (b, n)).1 =
      (l.find? (fun c => decide (listMax (l.map (ctxScore lower)) ≤ ctxScore lower c))).getD b := by
  intro l
  induction l with
  | nil => intro b n h; exact absurd h (by simp [listMax])
  | cons c cs ih =>
    intro b n h
    have hM : listMax ((c :: cs).map (ctxScore lower)) =
        max (ctxScore lower c) (listMax (cs.map (ctxScore lower))) := rfl
    rcases Nat.le_total (listMax (cs.map (ctxScore lower))) (ctxScore lower c) with h1 | h1
    · -- head attains the maximum
      have hMc : listMax ((c :: cs).map (ctxScore lower)) = ctxScore lower c := by
        rw [hM, Nat.max_eq_left h1]
      have hn : n < ctxScore lower c := by rw [hMc] at h; exact h
      have hpc : (decide (listMax ((c :: cs).map (ctxScore lower)) ≤ ctxScore lower c)) = true := by
        rw [hMc]; simp
      rw [pickBest, if_pos hn]
      rw [pickBest_stay lower cs c (ctxScore lower c)
        (fun d hd => le_trans (le_listMax_of_mem (List.mem_map_of_mem _ hd)) h1)]
      rw [List.find?_cons_of_pos (p := fun x =>
        decide (listMax ((c :: cs).map (ctxScore lower)) ≤ ctxScore lower x)) _ hpc]
      rfl
    · rcases Nat.lt_or_ge (ctxScore lower c) (listMax (cs.map (ctxScore lower))) with h2 | h2
      · -- the maximum lives strictly in the tail
        have hMc : listMax ((c :: cs).map (ctxScore lower)) = listMax (cs.map (ctxScore lower)) := by
          rw [hM, Nat.max_eq_right h1]
        have hne : cs.map (ctxScore lower) ≠ [] := by
          intro he
          rw [he] at h2
          exact Nat.not_lt_zero _ h2
        obtain ⟨d, hd, hdm⟩ := List.mem_map.1 (listMax_attained _ hne)
        have hfind : (cs.find? (fun x =>
            decide (listMax (cs.map (ctxScore lower)) ≤ ctxScore lower x))).isSome := by
          rw [List.find?_isSome]
          exact ⟨d, hd, by simp [hdm]⟩
        obtain ⟨v, hv⟩ := Option.isSome_iff_exists.1 hfind
        have hpc : (decide (listMax ((c :: cs).map (ctxScore lower)) ≤ ctxScore lower c)) = false := by
          rw [hMc]
          simp only [decide_eq_false_iff_not]
          exact Nat.not_le.2 h2
        rw [List.find?_cons_of_neg (p := fun x =>
          decide (listMax ((c :: cs).map (ctxScore lower)) ≤ ctxScore lower x)) _
          (by simp only [hpc]; exact Bool.false_ne_true)]
        simp only [hMc]
        by_cases hn : n < ctxScore lower c
        · rw [pickBest, if_pos hn, ih c (ctxScore lower c) h2, hv]
          rfl
        · rw [pickBest, if_neg hn, ih b n (by rw [hMc] at h; exact h), hv]
      · -- head score ties the tail maximum; the head wins
        have hq : ctxScore lower c = listMax (cs.map (ctxScore lower)) := Nat.le_antisymm h1 h2
        have hMc : listMax ((c :: cs).map (ctxScore lower)) = ctxScore lower c := by
          rw [hM, ← hq, Nat.max_self]
        have hn : n < ctxScore lower c := by rw [hMc] at h; exact h
        have hpc : (decide (listMax ((c :: cs).map (ctxScore lower)) ≤ ctxScore lower c)) = true := by
          rw [hMc]; simp
        rw [pickBest, if_pos hn]
        rw [pickBest_stay lower cs c (ctxScore lower c)
          (fun d hd => le_trans (le_listMax_of_mem (List.mem_map_of_mem _ hd)) h2)]
        rw [List.find?_cons_of_pos (p := fun x =>
          decide (listMax ((c :: cs).map (ctxScore lower)) ≤ ctxScore lower x)) _ hpc]
        rfl

lemma find?_split {α : Type} (p : α → Bool) :
    ∀ (l : List α) (a : α), l.find? p = some a →
    ∃ l1 l2, l = l1 ++ a :: l2 ∧ ∀ x ∈ l1, p x = false := by
  intro l
  induction l with
  | nil => intro a h; cases h
  | cons c cs ih =>
    intro a h
    by_cases hc : p c = true
    · rw [List.find?_cons_of_pos _ hc] at h
      cases h
      exact ⟨[], cs, rfl, by intro x hx; cases hx⟩
    · rw [List.find?_cons_of_neg _ hc] at h
      obtain ⟨l1, l2, hdecomp, hall⟩ := ih a h
      refine ⟨c :: l1, l2, by rw [hdecomp]; rfl, ?_⟩
      intro x hx
      rcases List.mem_cons.1 hx with rfl | hx
      · exact Bool.eq_false_iff.2 hc
      · exact hall x hx

/-! ## Claim C7 -/

/-- C7: for every input text, the semantic-context classifier returns
exactly one category: the non-unknown category whose keyword count is
strictly highest, ties resolved to the first-enumerated category attaining
the maximum (every earlier-enumerated category scores strictly below it);
it returns `unknown` if and only if every non-unknown category scores 0. -/
theorem extractSemanticContext_first_max (text : String) :
    (maxCtxScore text = 0 → extractSemanticContext text = SemanticContext.unknown) ∧
    (maxCtxScore text ≠ 0 →
      extractSemanticContext text ≠ SemanticContext.unknown ∧
      extractSemanticContext text ∈ contextOrder ∧
      ctxScore (jsToLower text) (extractSemanticContext text) = maxCtxScore text ∧
      ∃ l1 l2, contextOrder = l1 ++ extractSemanticContext text :: l2 ∧
        ∀ c ∈ l1, ctxScore (jsToLower text) c < maxCtxScore text) := by
  constructor
  · intro h0
    have hall : ∀ c ∈ contextOrder, ctxScore (jsToLower text) c ≤ 0 := by
      intro c hc
      have hle := le_listMax_of_mem (List.mem_map_of_mem (ctxScore (jsToLower text)) hc)
      have h0' : listMax (contextOrder.map (ctxScore (jsToLower text))) = 0 := h0
      omega
    unfold extractSemanticContext
    rw [pickBest_stay _ _ _ _ hall]
  · intro hne
    have hpos : 0 < listMax (contextOrder.map (ctxScore (jsToLower text))) :=
      Nat.pos_of_ne_zero hne
    have hext : extractSemanticContext text =
        (contextOrder.find? (fun c =>
          decide (listMax (contextOrder.map (ctxScore (jsToLower text))) ≤
            ctxScore (jsToLower text) c))).getD SemanticContext.unknown :=
      pickBest_fst (jsToLower text) contextOrder SemanticContext.unknown 0 hpos
    have hmem := listMax_attained (contextOrder.map (ctxScore (jsToLower text)))
      (by simp [contextOrder])
    obtain ⟨d, hd, hdm⟩ := List.mem_map.1 hmem
    have hfind : (contextOrder.find? (fun c =>
        decide (listMax (contextOrder.map (ctxScore (jsToLower text))) ≤
          ctxScore (jsToLower text) c))).isSome := by
      rw [List.find?_isSome]
      exact ⟨d, hd, by simp [hdm]⟩
    obtain ⟨v, hv⟩ := Option.isSome_iff_exists.1 hfind
    have hvv : extractSemanticContext text = v := by rw [hext, hv]; rfl
    have hvmem : v ∈ contextOrder := List.mem_of_find?_eq_some hv
    have hvp : listMax (contextOrder.map (ctxScore (jsToLower text))) ≤
        ctxScore (jsToLower text) v := by
      have := List.find?_some hv
      simpa using this
    have hvle : ctxScore (jsToLower text) v ≤
        listMax (contextOrder.map (ctxScore (jsToLower text))) :=
      le_listMax_of_mem (List.mem_map_of_mem _ hvmem)
    have hnu : ∀ c ∈ contextOrder, c ≠ SemanticContext.unknown := by decide
    refine ⟨hvv ▸ hnu v hvmem, hvv ▸ hvmem, ?_, ?_⟩
    · rw [hvv]
      exact Nat.le_antisymm hvle hvp
    · obtain ⟨l1, l2, hdecomp, hfalse⟩ := find?_split _ contextOrder v hv
      refine ⟨l1, l2, by rw [hvv]; exact hdecomp, ?_⟩
      intro c hc
      have := hfalse c hc
      have hclt : ¬ (listMax (contextOrder.map (ctxScore (jsToLower text))) ≤
          ctxScore (jsToLower text) c) := by
        simpa using this
      exact Nat.lt_of_not_le hclt

/-- Witness for C7 at concrete inputs: a text with no context keywords
classifies as `unknown`, one with a `leadership` keyword does not. -/
theorem extractSemanticContext_first_max_witness :
    extractSemanticContext "qqq" = SemanticContext.unknown ∧
    extractSemanticContext "nominate" ≠ SemanticContext.unknown :=
  ⟨(extractSemanticContext_first_max "qqq").1 (by decide),
   ((extractSemanticContext_first_max "nominate").2 (by decide)).1⟩


/-! ## Supporting lemmas: tier-by-tier characterisation of the decision
engine -/

lemma headI_cons_tail {α : Type} [Inhabited α] (l : List α) (h : l ≠ []) :
    l = l.headI :: l.tail := by
  cases l with
  | nil => exact absurd rfl h
  | cons x xs => rfl

lemma msm_nil (extract : Extractor) (classifier : Classifier)
    (question : String) (events : List KalshiEventRow)
    (hl : preFilterEvents extract question events = []) :
    matchSingleMarketT extract classifier question events =
      ({ kalshiEventTicker := none, kalshiMarketTicker := none, kalshiEventTitle := none,
         similarity := 0, confidence := 0, matchMethod := .none, matchedEntities := [],
         reasoning := some "No entity overlap found" }, false) := by
  unfold matchSingleMarketT
  rw [hl]

lemma msm_strong (extract : Extractor) (classifier : Classifier)
    (question : String) (events : List KalshiEventRow)
    (top : PreFilterResult) (rest : List PreFilterResult)
    (hl : preFilterEvents extract question events = top :: rest)
    (h3 : 3 ≤ top.matchedEntities.length)
    (hcomp : top.contextCompatible = true) :
    matchSingleMarketT extract classifier question events =
      ({ kalshiEventTicker := some top.eventTicker,
         kalshiMarketTicker := bestTickerOf (events.find? (fun e => e.event_ticker == top.eventTicker)),
         kalshiEventTitle := some top.eventTitle,
         similarity := min (top.entityScore * (3/2)) (19/20),
         confidence := jsRound (min (top.entityScore * 150) 95),
         matchMethod := .entity,
         matchedEntities := top.matchedEntities,
         reasoning := some ("Strong entity match: " ++ String.intercalate ", " top.matchedEntities) }, false) := by
  unfold matchSingleMarketT
  rw [hl]
  simp only []
  rw [if_pos ⟨h3, hcomp⟩]

lemma msm_fail_hit (extract : Extractor) (classifier : Classifier)
    (question : String) (events : List KalshiEventRow)
    (top : PreFilterResult) (rest : List PreFilterResult)
    (hl : preFilterEvents extract question events = top :: rest)
    (hnot : ¬(3 ≤ top.matchedEntities.length ∧ top.contextCompatible = true))
    (hfail : (match classifier (buildEventList 0 ((top :: rest).take 30)) with
      | none => true
      | some r => decide (r.eventIndex < 0) || decide (r.confidence < 25)) = true)
    (hscore : (2/5 : ℚ) ≤ top.entityScore)
    (hcomp : top.contextCompatible = true) :
    matchSingleMarketT extract classifier question events =
      ({ kalshiEventTicker := some top.eventTicker,
         kalshiMarketTicker := bestTickerOf (events.find? (fun e => e.event_ticker == top.eventTicker)),
         kalshiEventTitle := some top.eventTitle,
         similarity := top.entityScore,
         confidence := jsRound (top.entityScore * 100),
         matchMethod := .entity,
         matchedEntities := top.matchedEntities,
         reasoning := some "Entity-based fallback (AI unavailable or low confidence)" }, true) := by
  unfold matchSingleMarketT
  rw [hl]
  simp only []
  rw [if_neg hnot, if_pos hfail, if_pos ⟨hscore, hcomp⟩]

lemma msm_fail_miss (extract : Extractor) (classifier : Classifier)
    (question : String) (events : List KalshiEventRow)
    (top : PreFilterResult) (rest : List PreFilterResult)
    (hl : preFilterEvents extract question events = top :: rest)
    (hnot : ¬(3 ≤ top.matchedEntities.length ∧ top.contextCompatible = true))
    (hfail : (match classifier (buildEventList 0 ((top :: rest).take 30)) with
      | none => true
      | some r => decide (r.eventIndex < 0) || decide (r.confidence < 25)) = true)
    (hmiss : ¬((2/5 : ℚ) ≤ top.entityScore ∧ top.contextCompatible = true)) :
    matchSingleMarketT extract classifier question events =
      ({ kalshiEventTicker := none, kalshiMarketTicker := none, kalshiEventTitle := none,
         similarity := 0, confidence := 0, matchMethod := .none, matchedEntities := [],
         reasoning := some (jsOrStr
           ((classifier (buildEventList 0 ((top :: rest).take 30))).map (fun r => r.reasoning))
           "No confident match found") }, true) := by
  unfold matchSingleMarketT
  rw [hl]
  simp only []
  rw [if_neg hnot, if_pos hfail, if_neg hmiss]

lemma msm_oob (extract : Extractor) (classifier : Classifier)
    (question : String) (events : List KalshiEventRow)
    (top : PreFilterResult) (rest : List PreFilterResult) (r : AIMatchResponse)
    (hl : preFilterEvents extract question events = top :: rest)
    (hnot : ¬(3 ≤ top.matchedEntities.length ∧ top.contextCompatible = true))
    (hclass : classifier (buildEventList 0 ((top :: rest).take 30)) = some r)
    (hidx : 0 ≤ r.eventIndex) (hconf : (25 : ℚ) ≤ r.confidence)
    (hget : ((top :: rest).take 30)[r.eventIndex.toNat]? = none) :
    matchSingleMarketT extract classifier question events =
      ({ kalshiEventTicker := none, kalshiMarketTicker := none, kalshiEventTitle := none,
         similarity := 0, confidence := 0, matchMethod := .none, matchedEntities := [],
         reasoning := some "AI returned out-of-bounds index" }, true) := by
  unfold matchSingleMarketT
  rw [hl]
  simp only [hclass]
  rw [decide_eq_false (not_lt.2 hidx), decide_eq_false (not_lt.2 hconf)]
  simp only [Bool.or_self, if_neg hnot, Bool.false_eq_true, if_false, hget]

lemma msm_ai (extract : Extractor) (classifier : Classifier)
    (question : String) (events : List KalshiEventRow)
    (top : PreFilterResult) (rest : List PreFilterResult)
    (r : AIMatchResponse) (mc : PreFilterResult)
    (hl : preFilterEvents extract question events = top :: rest)
    (hnot : ¬(3 ≤ top.matchedEntities.length ∧ top.contextCompatible = true))
    (hclass : classifier (buildEventList 0 ((top :: rest).take 30)) = some r)
    (hidx : 0 ≤ r.eventIndex) (hconf : (25 : ℚ) ≤ r.confidence)
    (hget : ((top :: rest).take 30)[r.eventIndex.toNat]? = some mc) :
    matchSingleMarketT extract classifier question events =
      ({ kalshiEventTicker := some mc.eventTicker,
         kalshiMarketTicker := bestTickerOf (events.find? (fun e => e.event_ticker == mc.eventTicker)),
         kalshiEventTitle := some mc.eventTitle,
         similarity := r.confidence / 100,
         confidence := r.confidence,
         matchMethod := .ai,
         matchedEntities := (match r.matchedConcepts with
           | some cs => cs
           | none => mc.matchedEntities),
         reasoning := some r.reasoning }, true) := by
  unfold matchSingleMarketT
  rw [hl]
  simp only [hclass]
  rw [decide_eq_false (not_lt.2 hidx), decide_eq_false (not_lt.2 hconf)]
  simp only [Bool.or_self, if_neg hnot, Bool.false_eq_true, if_false, hget]

lemma preFilterEvents_of_no_entities (extract : Extractor) (question : String)
    (events : List KalshiEventRow) (h : extract question = []) :
    preFilterEvents extract question events = [] := by
  unfold preFilterEvents
  rw [h]
  simp


/-! ## Claim C1 -/

/-- C1: whenever the pre-filter output is non-empty and its top-ranked
candidate has at least 3 matched entities and is context-compatible,
`matchSingleMarket` returns an `entity`-method result with
`similarity = min(entityScore * 1.5, 0.95)` and
`confidence = round(min(entityScore * 150, 95))` computed from that top
candidate, and does not invoke the external classifier. -/
theorem decide_strong_entity_tier (extract : Extractor) (classifier : Classifier)
    (question : String) (events : List KalshiEventRow)
    (hne : preFilterEvents extract question events ≠ [])
    (h3 : 3 ≤ (topCandidate extract question events).matchedEntities.length)
    (hcomp : (topCandidate extract question events).contextCompatible = true) :
    (matchSingleMarket extract classifier question events).matchMethod = MatchMethod.entity ∧
    (matchSingleMarket extract classifier question events).similarity =
      min ((topCandidate extract question events).entityScore * (3/2)) (19/20) ∧
    (matchSingleMarket extract classifier question events).confidence =
      jsRound (min ((topCandidate extract question events).entityScore * 150) 95) ∧
    (matchSingleMarketT extract classifier question events).2 = false := by
  have hl := headI_cons_tail _ hne
  have h := msm_strong extract classifier question events _ _ hl h3 hcomp
  unfold matchSingleMarket
  rw [h]
  exact ⟨rfl, rfl, rfl, rfl⟩

/-- Witness for C1: a three-entity overlap with compatible (both unknown)
contexts takes the strong-entity tier without a classifier call. -/
theorem decide_strong_entity_tier_witness :
    (matchSingleMarket wExtract3 wClassifierNone "q" wEvents).matchMethod = MatchMethod.entity ∧
    (matchSingleMarket wExtract3 wClassifierNone "q" wEvents).similarity =
      min ((topCandidate wExtract3 "q" wEvents).entityScore * (3/2)) (19/20) ∧
    (matchSingleMarket wExtract3 wClassifierNone "q" wEvents).confidence =
      jsRound (min ((topCandidate wExtract3 "q" wEvents).entityScore * 150) 95) ∧
    (matchSingleMarketT wExtract3 wClassifierNone "q" wEvents).2 = false :=
  decide_strong_entity_tier wExtract3 wClassifierNone "q" wEvents
    (by decide) (by decide) (by decide)

/-! ## Claim C8 -/

/-- C8: when no entities are extracted from the question, the pre-filter
returns the empty sequence and `matchSingleMarket` returns a `none` result
with confidence 0, similarity 0, null target identifiers and reasoning
"No entity overlap found". -/
theorem decide_no_entities (extract : Extractor) (classifier : Classifier)
    (question : String) (events : List KalshiEventRow)
    (h : extract question = []) :
    preFilterEvents extract question events = [] ∧
    matchSingleMarket extract classifier question events =
      { kalshiEventTicker := none, kalshiMarketTicker := none, kalshiEventTitle := none,
        similarity := 0, confidence := 0, matchMethod := .none, matchedEntities := [],
        reasoning := some "No entity overlap found" } := by
  have hpre := preFilterEvents_of_no_entities extract question events h
  refine ⟨hpre, ?_⟩
  have hm := msm_nil extract classifier question events hpre
  unfold matchSingleMarket
  rw [hm]

/-- Witness for C8 at a concrete entity-free question. -/
theorem decide_no_entities_witness :
    preFilterEvents wExtract0 "x" wEvents = [] ∧
    matchSingleMarket wExtract0 wClassifierNone "x" wEvents =
      { kalshiEventTicker := none, kalshiMarketTicker := none, kalshiEventTitle := none,
        similarity := 0, confidence := 0, matchMethod := .none, matchedEntities := [],
        reasoning := some "No entity overlap found" } :=
  decide_no_entities wExtract0 wClassifierNone "x" wEvents rfl


/-! ## Claim C2 -/

/-- C2: with a non-empty pre-filter and the strong-entity tier not taken,
whenever the classifier outcome fails the acceptance test (`null`,
`eventIndex < 0`, or `confidence < 25`), `matchSingleMarket` returns the
top pre-filter candidate as an entity-method fallback exactly when that
candidate has `entityScore ≥ 0.4` and is context-compatible; otherwise it
returns a `none` result (confidence 0, similarity 0) whose reasoning is
the stated non-empty classifier reasoning when present, else the
generic "No confident match found" message. -/
theorem decide_classifier_failure_fallback (extract : Extractor) (classifier : Classifier)
    (question : String) (events : List KalshiEventRow)
    (hne : preFilterEvents extract question events ≠ [])
    (hnot : ¬(3 ≤ (topCandidate extract question events).matchedEntities.length ∧
        (topCandidate extract question events).contextCompatible = true))
    (hfail : (match classifier (buildEventList 0 ((preFilterEvents extract question events).take 30)) with
      | none => true
      | some r => decide (r.eventIndex < 0) || decide (r.confidence < 25)) = true) :
    (((2/5 : ℚ) ≤ (topCandidate extract question events).entityScore ∧
        (topCandidate extract question events).contextCompatible = true) →
      matchSingleMarket extract classifier question events =
        { kalshiEventTicker := some (topCandidate extract question events).eventTicker,
          kalshiMarketTicker := bestTickerOf (events.find? (fun e =>
            e.event_ticker == (topCandidate extract question events).eventTicker)),
          kalshiEventTitle := some (topCandidate extract question events).eventTitle,
          similarity := (topCandidate extract question events).entityScore,
          confidence := jsRound ((topCandidate extract question events).entityScore * 100),
          matchMethod := .entity,
          matchedEntities := (topCandidate extract question events).matchedEntities,
          reasoning := some "Entity-based fallback (AI unavailable or low confidence)" }) ∧
    (¬((2/5 : ℚ) ≤ (topCandidate extract question events).entityScore ∧
        (topCandidate extract question events).contextCompatible = true) →
      matchSingleMarket extract classifier question events =
        { kalshiEventTicker := none, kalshiMarketTicker := none, kalshiEventTitle := none,
          similarity := 0, confidence := 0, matchMethod := .none, matchedEntities := [],
          reasoning := some (jsOrStr
            ((classifier (buildEventList 0 ((preFilterEvents extract question events).take 30))).map
              (fun r => r.reasoning))
            "No confident match found") }) ∧
    ((matchSingleMarket extract classifier question events).matchMethod = MatchMethod.entity ↔
      ((2/5 : ℚ) ≤ (topCandidate extract question events).entityScore ∧
        (topCandidate extract question events).contextCompatible = true)) := by
  have hl := headI_cons_tail _ hne
  rw [hl] at hfail
  have hHit : ((2/5 : ℚ) ≤ (topCandidate extract question events).entityScore ∧
      (topCandidate extract question events).contextCompatible = true) →
      matchSingleMarket extract classifier question events =
        { kalshiEventTicker := some (topCandidate extract question events).eventTicker,
          kalshiMarketTicker := bestTickerOf (events.find? (fun e =>
            e.event_ticker == (topCandidate extract question events).eventTicker)),
          kalshiEventTitle := some (topCandidate extract question events).eventTitle,
          similarity := (topCandidate extract question events).entityScore,
          confidence := jsRound ((topCandidate extract question events).entityScore * 100),
          matchMethod := .entity,
          matchedEntities := (topCandidate extract question events).matchedEntities,
          reasoning := some "Entity-based fallback (AI unavailable or low confidence)" } := by
    intro hcond
    have h := msm_fail_hit extract classifier question events _ _ hl hnot hfail hcond.1 hcond.2
    unfold matchSingleMarket
    rw [h]
    rfl
  have hMiss : ¬((2/5 : ℚ) ≤ (topCandidate extract question events).entityScore ∧
      (topCandidate extract question events).contextCompatible = true) →
      matchSingleMarket extract classifier question events =
        { kalshiEventTicker := none, kalshiMarketTicker := none, kalshiEventTitle := none,
          similarity := 0, confidence := 0, matchMethod := .none, matchedEntities := [],
          reasoning := some (jsOrStr
            ((classifier (buildEventList 0 ((preFilterEvents extract question events).take 30))).map
              (fun r => r.reasoning))
            "No confident match found") } := by
    intro hmiss
    have h := msm_fail_miss extract classifier question events _ _ hl hnot hfail hmiss
    unfold matchSingleMarket
    rw [h, ← hl]
  refine ⟨hHit, hMiss, ?_⟩
  by_cases hcond : ((2/5 : ℚ) ≤ (topCandidate extract question events).entityScore ∧
      (topCandidate extract question events).contextCompatible = true)
  · rw [hHit hcond]
    exact iff_of_true rfl hcond
  · rw [hMiss hcond]
    exact iff_of_false (by simp) hcond

/-- Witness for C2: a single-entity candidate pool with a `null`-returning
classifier stub. -/
theorem decide_classifier_failure_fallback_witness :
    (((2/5 : ℚ) ≤ (topCandidate wExtract1 "q" wEvents).entityScore ∧
        (topCandidate wExtract1 "q" wEvents).contextCompatible = true) →
      matchSingleMarket wExtract1 wClassifierNone "q" wEvents =
        { kalshiEventTicker := some (topCandidate wExtract1 "q" wEvents).eventTicker,
          kalshiMarketTicker := bestTickerOf (wEvents.find? (fun e =>
            e.event_ticker == (topCandidate wExtract1 "q" wEvents).eventTicker)),
          kalshiEventTitle := some (topCandidate wExtract1 "q" wEvents).eventTitle,
          similarity := (topCandidate wExtract1 "q" wEvents).entityScore,
          confidence := jsRound ((topCandidate wExtract1 "q" wEvents).entityScore * 100),
          matchMethod := .entity,
          matchedEntities := (topCandidate wExtract1 "q" wEvents).matchedEntities,
          reasoning := some "Entity-based fallback (AI unavailable or low confidence)" }) ∧
    (¬((2/5 : ℚ) ≤ (topCandidate wExtract1 "q" wEvents).entityScore ∧
        (topCandidate wExtract1 "q" wEvents).contextCompatible = true) →
      matchSingleMarket wExtract1 wClassifierNone "q" wEvents =
        { kalshiEventTicker := none, kalshiMarketTicker := none, kalshiEventTitle := none,
          similarity := 0, confidence := 0, matchMethod := .none, matchedEntities := [],
          reasoning := some (jsOrStr
            ((wClassifierNone (buildEventList 0 ((preFilterEvents wExtract1 "q" wEvents).take 30))).map
              (fun r => r.reasoning))
            "No confident match found") }) ∧
    ((matchSingleMarket wExtract1 wClassifierNone "q" wEvents).matchMethod = MatchMethod.entity ↔
      ((2/5 : ℚ) ≤ (topCandidate wExtract1 "q" wEvents).entityScore ∧
        (topCandidate wExtract1 "q" wEvents).contextCompatible = true)) :=
  decide_classifier_failure_fallback wExtract1 wClassifierNone "q" wEvents
    (by decide) (by decide) rfl

/-! ## Claim C4 -/

/-- C4: an accepted-looking classifier outcome (`eventIndex ≥ 0`,
`confidence ≥ 25`) whose index is out of bounds against the candidate list
actually sent (the top 30) yields a `none` result with null target
identifiers, similarity 0, confidence 0 and an out-of-bounds reasoning —
and, being a total function, does not throw. -/
theorem decide_classifier_oob (extract : Extractor) (classifier : Classifier)
    (question : String) (events : List KalshiEventRow) (r : AIMatchResponse)
    (hne : preFilterEvents extract question events ≠ [])
    (hnot : ¬(3 ≤ (topCandidate extract question events).matchedEntities.length ∧
        (topCandidate extract question events).contextCompatible = true))
    (hclass : classifier (buildEventList 0 ((preFilterEvents extract question events).take 30)) = some r)
    (hidx : 0 ≤ r.eventIndex) (hconf : (25 : ℚ) ≤ r.confidence)
    (hoob : ((preFilterEvents extract question events).take 30).length ≤ r.eventIndex.toNat) :
    matchSingleMarket extract classifier question events =
      { kalshiEventTicker := none, kalshiMarketTicker := none, kalshiEventTitle := none,
        similarity := 0, confidence := 0, matchMethod := .none, matchedEntities := [],
        reasoning := some "AI returned out-of-bounds index" } := by
  have hl := headI_cons_tail _ hne
  rw [hl] at hclass hoob
  have hget := List.getElem?_eq_none hoob
  have h := msm_oob extract classifier question events _ _ r hl hnot hclass hidx hconf hget
  unfold matchSingleMarket
  rw [h]


/-- Witness for C4: one candidate sent, classifier points at index 5. -/
theorem decide_classifier_oob_witness :
    matchSingleMarket wExtract1 wClassifierOOB "q" wEvents =
      { kalshiEventTicker := none, kalshiMarketTicker := none, kalshiEventTitle := none,
        similarity := 0, confidence := 0, matchMethod := .none, matchedEntities := [],
        reasoning := some "AI returned out-of-bounds index" } :=
  decide_classifier_oob wExtract1 wClassifierOOB "q" wEvents
    { eventIndex := 5, confidence := 30, reasoning := "r", matchedConcepts := none }
    (by decide) (by decide) rfl (by decide) (by decide) (by decide)


/-! ## Supporting lemmas: pre-filter structure -/

lemma mem_insertDesc (x a : PreFilterResult) :
    ∀ (l : List PreFilterResult), a ∈ insertDesc x l ↔ a = x ∨ a ∈ l := by
  intro l
  induction l with
  | nil => simp [insertDesc]
  | cons y ys ih =>
    rw [insertDesc]
    by_cases hc : x.entityScore < y.entityScore
    · rw [if_pos hc]
      simp only [List.mem_cons, ih]
      tauto
    · rw [if_neg hc]
      simp only [List.mem_cons]

lemma mem_sortByScore (a : PreFilterResult) :
    ∀ (l : List PreFilterResult), a ∈ sortByScore l ↔ a ∈ l := by
  intro l
  induction l with
  | nil => simp [sortByScore]
  | cons x xs ih =>
    rw [sortByScore, mem_insertDesc]
    simp only [List.mem_cons, ih]

lemma dedupFirst_nodup : ∀ (l : List String), (dedupFirst l).Nodup := by
  intro l
  induction l with
  | nil => exact List.nodup_nil
  | cons x xs ih =>
    rw [dedupFirst]
    refine List.Nodup.cons ?_ (List.Nodup.filter _ ih)
    intro hx
    have := List.of_mem_filter hx
    simp at this

lemma mem_dedupFirst : ∀ (l : List String) (a : String), a ∈ dedupFirst l ↔ a ∈ l := by
  intro l
  induction l with
  | nil => intro a; simp [dedupFirst]
  | cons x xs ih =>
    intro a
    rw [dedupFirst]
    by_cases hax : a = x
    · subst hax
      simp
    · simp only [List.mem_cons, List.mem_filter, ih]
      constructor
      · rintro (rfl | ⟨ha, _⟩)
        · exact Or.inl rfl
        · exact Or.inr ha
      · rintro (rfl | ha)
        · exact Or.inl rfl
        · exact Or.inr ⟨ha, by simpa using hax⟩

lemma matchedKeys_subset_right (qn en : List String) :
    ∀ a ∈ matchedKeys qn en, a ∈ en := by
  intro a ha
  have hc := List.of_mem_filter ha
  exact List.elem_iff.1 hc

lemma matchedKeys_nodup (qn en : List String) (hq : qn.Nodup) : (matchedKeys qn en).Nodup :=
  List.Nodup.filter _ hq

lemma matchedKeys_len_le_left (qn en : List String) :
    (matchedKeys qn en).length ≤ qn.length :=
  List.length_filter_le _ _

lemma matchedKeys_len_le_right (qn en : List String) (hq : qn.Nodup) (he : en.Nodup) :
    (matchedKeys qn en).length ≤ en.length := by
  have hsub : (matchedKeys qn en).toFinset ⊆ en.toFinset := by
    intro a ha
    rw [List.mem_toFinset] at ha ⊢
    exact matchedKeys_subset_right qn en a ha
  have h1 := List.toFinset_card_of_nodup (matchedKeys_nodup qn en hq)
  have h2 := List.toFinset_card_of_nodup he
  calc (matchedKeys qn en).length = (matchedKeys qn en).toFinset.card := h1.symm
    _ ≤ en.toFinset.card := Finset.card_le_card hsub
    _ = en.length := h2

lemma matchedKeys_card_inter (qn en : List String) (hq : qn.Nodup) :
    (matchedKeys qn en).length = (qn.toFinset ∩ en.toFinset).card := by
  rw [← List.toFinset_card_of_nodup (matchedKeys_nodup qn en hq)]
  congr 1
  ext a
  simp only [List.mem_toFinset, Finset.mem_inter, matchedKeys, List.mem_filter]
  constructor
  · rintro ⟨ha, hc⟩
    exact ⟨ha, List.elem_iff.1 hc⟩
  · rintro ⟨ha, he⟩
    exact ⟨ha, List.elem_iff.2 he⟩

/-- The Dice score is symmetric on deduplicated key sets. -/
lemma diceScore_comm (qn en : List String) (hq : qn.Nodup) (he : en.Nodup) :
    diceScore qn en = diceScore en qn := by
  unfold diceScore
  rw [matchedKeys_card_inter qn en hq, matchedKeys_card_inter en qn he,
    Finset.inter_comm, add_comm ((qn.length : ℚ)) ((en.length : ℚ))]

lemma entityScore_pos_le_one (qn en : List String) (hq : qn.Nodup) (he : en.Nodup)
    (hm : 1 ≤ (matchedKeys qn en).length) :
    0 < diceScore qn en ∧ diceScore qn en ≤ 1 := by
  have hq1 : 1 ≤ qn.length := le_trans hm (matchedKeys_len_le_left qn en)
  have he1 : 1 ≤ en.length := le_trans hm (matchedKeys_len_le_right qn en hq he)
  have hsum : (matchedKeys qn en).length * 2 ≤ qn.length + en.length := by
    have h1 := matchedKeys_len_le_left qn en
    have h2 := matchedKeys_len_le_right qn en hq he
    omega
  have hden : (0 : ℚ) < (qn.length : ℚ) + (en.length : ℚ) := by
    have : 0 < qn.length + en.length := by omega
    exact_mod_cast this
  constructor
  · apply div_pos ?_ hden
    have : 0 < (matchedKeys qn en).length * 2 := by omega
    exact_mod_cast this
  · unfold diceScore
    rw [div_le_one hden]
    calc ((matchedKeys qn en).length * 2 : ℚ) = (((matchedKeys qn en).length * 2 : ℕ) : ℚ) := by push_cast; ring
      _ ≤ ((qn.length + en.length : ℕ) : ℚ) := by exact_mod_cast hsum
      _ = (qn.length : ℚ) + (en.length : ℚ) := by push_cast; ring


lemma processCandidate_eq_some (extract : Extractor) (qn : List String)
    (qc : SemanticContext) (ev : KalshiEventRow) (res : PreFilterResult)
    (h : processCandidate extract qn qc ev = some res) :
    res = { eventTicker := ev.event_ticker,
            eventTitle := ev.title,
            subtitle := (match ev.subtitle with | some s => s | none => ""),
            entityScore := (((matchedKeys qn (keysOf extract (eventText ev.title ev.subtitle))).length * 2 : ℕ) : ℚ) /
              ((qn.length : ℚ) + ((keysOf extract (eventText ev.title ev.subtitle)).length : ℚ)),
            matchedEntities := matchedKeys qn (keysOf extract (eventText ev.title ev.subtitle)),
            contextCompatible := areContextsCompatible qc
              (extractSemanticContext (eventText ev.title ev.subtitle)) } ∧
    1 ≤ (matchedKeys qn (keysOf extract (eventText ev.title ev.subtitle))).length ∧
    ¬((matchedKeys qn (keysOf extract (eventText ev.title ev.subtitle))).length = 1 ∧
      areContextsCompatible qc (extractSemanticContext (eventText ev.title ev.subtitle)) = false) := by
  unfold processCandidate at h
  by_cases h1 : (extract (eventText ev.title ev.subtitle)).length = 0
  · rw [if_pos h1] at h
    cases h
  rw [if_neg h1] at h
  by_cases h2 : (matchedKeys qn (keysOf extract (eventText ev.title ev.subtitle))).length = 0
  · rw [if_pos h2] at h
    cases h
  rw [if_neg h2] at h
  by_cases h3 : ((matchedKeys qn (keysOf extract (eventText ev.title ev.subtitle))).length = 1 ∧
      areContextsCompatible qc (extractSemanticContext (eventText ev.title ev.subtitle)) = false)
  · rw [if_pos h3] at h
    cases h
  rw [if_neg h3] at h
  refine ⟨(Option.some_inj.1 h).symm, by omega, h3⟩

lemma processCandidate_isSome (extract : Extractor) (qn : List String)
    (qc : SemanticContext) (ev : KalshiEventRow)
    (h1 : (extract (eventText ev.title ev.subtitle)).length ≠ 0)
    (h2 : 1 ≤ (matchedKeys qn (keysOf extract (eventText ev.title ev.subtitle))).length)
    (h3 : ¬((matchedKeys qn (keysOf extract (eventText ev.title ev.subtitle))).length = 1 ∧
      areContextsCompatible qc (extractSemanticContext (eventText ev.title ev.subtitle)) = false)) :
    (processCandidate extract qn qc ev).isSome := by
  unfold processCandidate
  rw [if_neg h1, if_neg (by omega : ¬(matchedKeys qn (keysOf extract (eventText ev.title ev.subtitle))).length = 0),
    if_neg h3]
  rfl

lemma mem_preFilterEvents (extract : Extractor) (question : String)
    (events : List KalshiEventRow) (res : PreFilterResult) :
    res ∈ preFilterEvents extract question events ↔
    ((extract question).length ≠ 0 ∧ ∃ ev ∈ events,
      processCandidate extract (keysOf extract question) (extractSemanticContext question) ev = some res) := by
  unfold preFilterEvents
  by_cases h0 : (extract question).length = 0
  · rw [if_pos h0]
    simp [h0]
  · rw [if_neg h0, mem_sortByScore, List.mem_filterMap]
    simp [h0]

/-- For any entity list sharing at least one key, the extraction of the
candidate text is non-empty. -/
lemma extract_ne_of_shared (extract : Extractor) (text : String)
    (qn : List String) (hm : 1 ≤ (matchedKeys qn (keysOf extract text)).length) :
    (extract text).length ≠ 0 := by
  intro h0
  rw [List.length_eq_zero] at h0
  have : keysOf extract text = [] := by simp [keysOf, h0, dedupFirst]
  rw [this] at hm
  have : matchedKeys qn [] = [] := by
    simp [matchedKeys, List.contains]
  rw [this] at hm
  simp at hm


/-! ## Claim C5 -/

/-- C5: a candidate sharing at least one normalized entity with the source
is rejected for context incompatibility only in the single-entity case: with
exactly 1 matched entity it survives iff its context is compatible, while
with ≥2 matched entities it survives regardless; every surviving candidate
appears in the pre-filter output. -/
theorem preFilter_single_entity_context_gate (extract : Extractor) (question : String)
    (events : List KalshiEventRow) (ev : KalshiEventRow) (hev : ev ∈ events)
    (hshare : 1 ≤ (matchedKeys (keysOf extract question)
      (keysOf extract (eventText ev.title ev.subtitle))).length) :
    ((matchedKeys (keysOf extract question) (keysOf extract (eventText ev.title ev.subtitle))).length = 1 →
      ((processCandidate extract (keysOf extract question) (extractSemanticContext question) ev).isSome ↔
        areContextsCompatible (extractSemanticContext question)
          (extractSemanticContext (eventText ev.title ev.subtitle)) = true)) ∧
    (2 ≤ (matchedKeys (keysOf extract question) (keysOf extract (eventText ev.title ev.subtitle))).length →
      (processCandidate extract (keysOf extract question) (extractSemanticContext question) ev).isSome) ∧
    (∀ res, processCandidate extract (keysOf extract question) (extractSemanticContext question) ev = some res →
      res ∈ preFilterEvents extract question events) := by
  have h1 : (extract (eventText ev.title ev.subtitle)).length ≠ 0 :=
    extract_ne_of_shared extract _ _ hshare
  refine ⟨?_, ?_, ?_⟩
  · intro hone
    constructor
    · intro hsome
      by_contra hcompat
      have hfalse : areContextsCompatible (extractSemanticContext question)
          (extractSemanticContext (eventText ev.title ev.subtitle)) = false := by
        cases hB : areContextsCompatible (extractSemanticContext question)
            (extractSemanticContext (eventText ev.title ev.subtitle)) with
        | false => rfl
        | true => exact absurd hB hcompat
      unfold processCandidate at hsome
      rw [if_neg h1, if_neg (by omega :
          ¬(matchedKeys (keysOf extract question) (keysOf extract (eventText ev.title ev.subtitle))).length = 0),
        if_pos ⟨hone, hfalse⟩] at hsome
      simp at hsome
    · intro hcompat
      refine processCandidate_isSome extract _ _ ev h1 hshare ?_
      rintro ⟨_, hf⟩
      rw [hcompat] at hf
      cases hf
  · intro h2
    refine processCandidate_isSome extract _ _ ev h1 hshare ?_
    rintro ⟨h1', _⟩
    omega
  · intro res hres
    rw [mem_preFilterEvents]
    refine ⟨?_, ev, hev, hres⟩
    intro h0
    rw [List.length_eq_zero] at h0
    have hq : keysOf extract question = [] := by simp [keysOf, h0, dedupFirst]
    rw [hq] at hshare
    have hnil : matchedKeys ([] : List String)
        (keysOf extract (eventText ev.title ev.subtitle)) = [] := by
      simp [matchedKeys]
    rw [hnil] at hshare
    simp at hshare

/-- Witness for C5: a single shared entity with compatible (both unknown)
contexts. -/
theorem preFilter_single_entity_context_gate_witness :
    ((matchedKeys (keysOf wExtract1 "q")
        (keysOf wExtract1 (eventText "T" none))).length = 1 →
      ((processCandidate wExtract1 (keysOf wExtract1 "q") (extractSemanticContext "q")
          { event_ticker := "E", title := "T", subtitle := none, markets_json := none }).isSome ↔
        areContextsCompatible (extractSemanticContext "q")
          (extractSemanticContext (eventText "T" none)) = true)) ∧
    (2 ≤ (matchedKeys (keysOf wExtract1 "q") (keysOf wExtract1 (eventText "T" none))).length →
      (processCandidate wExtract1 (keysOf wExtract1 "q") (extractSemanticContext "q")
        { event_ticker := "E", title := "T", subtitle := none, markets_json := none }).isSome) ∧
    (∀ res, processCandidate wExtract1 (keysOf wExtract1 "q") (extractSemanticContext "q")
        { event_ticker := "E", title := "T", subtitle := none, markets_json := none } = some res →
      res ∈ preFilterEvents wExtract1 "q" wEvents) :=
  preFilter_single_entity_context_gate wExtract1 "q" wEvents
    { event_ticker := "E", title := "T", subtitle := none, markets_json := none }
    (by decide) (by decide)

/-! ## Claim C6 -/

/-- C6: every surviving pre-filter candidate carries
`entityScore = 2 * |matchedEntities| / (|sourceKeys| + |candidateKeys|)`
over the deduplicated normalized-key sets, the score lies strictly in
(0, 1], and it is symmetric under swapping the source and candidate key
sets. -/
theorem entityScore_dice_properties (extract : Extractor) (question : String)
    (events : List KalshiEventRow) (i : ℕ)
    (hi : i < (preFilterEvents extract question events).length) :
    (∃ ev ∈ events,
      ((preFilterEvents extract question events)[i]).entityScore =
        diceScore (keysOf extract question) (keysOf extract (eventText ev.title ev.subtitle)) ∧
      ((preFilterEvents extract question events)[i]).matchedEntities =
        matchedKeys (keysOf extract question) (keysOf extract (eventText ev.title ev.subtitle)) ∧
      ((preFilterEvents extract question events)[i]).entityScore =
        2 * (((preFilterEvents extract question events)[i]).matchedEntities.length : ℚ) /
          (((keysOf extract question).length : ℚ) +
            ((keysOf extract (eventText ev.title ev.subtitle)).length : ℚ)) ∧
      diceScore (keysOf extract (eventText ev.title ev.subtitle)) (keysOf extract question) =
        diceScore (keysOf extract question) (keysOf extract (eventText ev.title ev.subtitle))) ∧
    0 < ((preFilterEvents extract question events)[i]).entityScore ∧
    ((preFilterEvents extract question events)[i]).entityScore ≤ 1 := by
  have hmem := List.getElem_mem hi
  obtain ⟨hq0, ev, hev, hpc⟩ := (mem_preFilterEvents extract question events _).1 hmem
  obtain ⟨heq, hm1, -⟩ := processCandidate_eq_some extract _ _ ev _ hpc
  have hqnodup : (keysOf extract question).Nodup := dedupFirst_nodup _
  have henodup : (keysOf extract (eventText ev.title ev.subtitle)).Nodup := dedupFirst_nodup _
  have hbounds := entityScore_pos_le_one _ _ hqnodup henodup hm1
  have hscore : ((preFilterEvents extract question events)[i]).entityScore =
      diceScore (keysOf extract question) (keysOf extract (eventText ev.title ev.subtitle)) := by
    rw [heq]
    unfold diceScore
    push_cast
    ring
  have hments : ((preFilterEvents extract question events)[i]).matchedEntities =
      matchedKeys (keysOf extract question) (keysOf extract (eventText ev.title ev.subtitle)) := by
    rw [heq]
  refine ⟨⟨ev, hev, hscore, hments, ?_, diceScore_comm _ _ henodup hqnodup⟩, ?_, ?_⟩
  · rw [hscore, hments]
    unfold diceScore
    ring
  · rw [hscore]; exact hbounds.1
  · rw [hscore]; exact hbounds.2

/-- Witness for C6 at the first (and only) surviving candidate of a
concrete one-entity instance. -/
theorem entityScore_dice_properties_witness :
    (∃ ev ∈ wEvents,
      ((preFilterEvents wExtract1 "q" wEvents)[0]).entityScore =
        diceScore (keysOf wExtract1 "q") (keysOf wExtract1 (eventText ev.title ev.subtitle)) ∧
      ((preFilterEvents wExtract1 "q" wEvents)[0]).matchedEntities =
        matchedKeys (keysOf wExtract1 "q") (keysOf wExtract1 (eventText ev.title ev.subtitle)) ∧
      ((preFilterEvents wExtract1 "q" wEvents)[0]).entityScore =
        2 * (((preFilterEvents wExtract1 "q" wEvents)[0]).matchedEntities.length : ℚ) /
          (((keysOf wExtract1 "q").length : ℚ) +
            ((keysOf wExtract1 (eventText ev.title ev.subtitle)).length : ℚ)) ∧
      diceScore (keysOf wExtract1 (eventText ev.title ev.subtitle)) (keysOf wExtract1 "q") =
        diceScore (keysOf wExtract1 "q") (keysOf wExtract1 (eventText ev.title ev.subtitle))) ∧
    0 < ((preFilterEvents wExtract1 "q" wEvents)[0]).entityScore ∧
    ((preFilterEvents wExtract1 "q" wEvents)[0]).entityScore ≤ 1 :=
  entityScore_dice_properties wExtract1 "q" wEvents 0 (by decide)


/-! ## Claim C3 -/

lemma mem_preFilter_score (extract : Extractor) (question : String)
    (events : List KalshiEventRow) (res : PreFilterResult)
    (h : res ∈ preFilterEvents extract question events) :
    0 < res.entityScore ∧ res.entityScore ≤ 1 := by
  obtain ⟨hq0, ev, hev, hpc⟩ := (mem_preFilterEvents extract question events _).1 h
  obtain ⟨heq, hm1, -⟩ := processCandidate_eq_some extract _ _ ev _ hpc
  have hb := entityScore_pos_le_one _ _ (dedupFirst_nodup _) (dedupFirst_nodup _) hm1
  have hscore : res.entityScore =
      diceScore (keysOf extract question) (keysOf extract (eventText ev.title ev.subtitle)) := by
    rw [heq]
    unfold diceScore
    push_cast
    ring
  rw [hscore]
  exact hb

lemma zero_bounds_record (res : MatchResult) (hs : res.similarity = 0) (hc : res.confidence = 0) :
    0 ≤ res.similarity ∧ res.similarity ≤ 1 ∧
    ∃ n : ℤ, res.confidence = (n : ℚ) ∧ 0 ≤ n ∧ n ≤ 100 := by
  rw [hs, hc]
  exact ⟨le_refl _, by norm_num, 0, by norm_num, le_refl _, by norm_num⟩

/-- C3, amended: every `MatchResult` produced by `matchSingleMarket` has
similarity in [0, 1] and an integer confidence in [0, 100], provided that
any classifier outcome it accepts carries an integer confidence ≤ 100 (the
classifier contract); the entity and none tiers satisfy the bounds
unconditionally. -/
theorem matchResult_bounds (extract : Extractor) (classifier : Classifier)
    (question : String) (events : List KalshiEventRow)
    (hC : ∀ r, classifier (buildEventList 0 ((preFilterEvents extract question events).take 30)) = some r →
      (∃ n : ℤ, r.confidence = (n : ℚ)) ∧ r.confidence ≤ 100) :
    0 ≤ (matchSingleMarket extract classifier question events).similarity ∧
    (matchSingleMarket extract classifier question events).similarity ≤ 1 ∧
    ∃ n : ℤ, (matchSingleMarket extract classifier question events).confidence = (n : ℚ) ∧
      0 ≤ n ∧ n ≤ 100 := by
  rcases hl : preFilterEvents extract question events with _ | ⟨top, rest⟩
  · have h := msm_nil extract classifier question events hl
    unfold matchSingleMarket
    rw [h]
    exact zero_bounds_record _ rfl rfl
  · have htop : top ∈ preFilterEvents extract question events := by
      rw [hl]
      exact List.mem_cons_self _ _
    have hsc := mem_preFilter_score extract question events top htop
    by_cases hstrong : (3 ≤ top.matchedEntities.length ∧ top.contextCompatible = true)
    · have h := msm_strong extract classifier question events top rest hl hstrong.1 hstrong.2
      unfold matchSingleMarket
      rw [h]
      refine ⟨?_, ?_, ⟨⌊min (top.entityScore * 150) 95 + 1/2⌋, rfl, ?_, ?_⟩⟩
      · show (0:ℚ) ≤ min (top.entityScore * (3/2)) (19/20)
        have h0 := hsc.1
        apply le_min
        · nlinarith
        · norm_num
      · show min (top.entityScore * (3/2)) (19/20) ≤ 1
        exact le_trans (min_le_right _ _) (by norm_num)
      · apply Int.le_floor.2
        push_cast
        have h95 : (0:ℚ) ≤ min (top.entityScore * 150) 95 :=
          le_min (by nlinarith [hsc.1]) (by norm_num)
        linarith
      · have hfl : (⌊min (top.entityScore * 150) 95 + 1/2⌋ : ℤ) < 101 := by
          apply Int.floor_lt.2
          push_cast
          have := min_le_right (top.entityScore * 150) 95
          linarith
        omega
    · by_cases hfb : (match classifier (buildEventList 0 ((top :: rest).take 30)) with
          | none => true
          | some r => decide (r.eventIndex < 0) || decide (r.confidence < 25)) = true
      · by_cases hcond : ((2/5 : ℚ) ≤ top.entityScore ∧ top.contextCompatible = true)
        · have h := msm_fail_hit extract classifier question events top rest hl hstrong hfb
            hcond.1 hcond.2
          unfold matchSingleMarket
          rw [h]
          refine ⟨?_, ?_, ⟨⌊top.entityScore * 100 + 1/2⌋, rfl, ?_, ?_⟩⟩
          · show (0:ℚ) ≤ top.entityScore
            exact le_of_lt hsc.1
          · show top.entityScore ≤ 1
            exact hsc.2
          · apply Int.le_floor.2
            push_cast
            nlinarith [hsc.1]
          · have hfl : (⌊top.entityScore * 100 + 1/2⌋ : ℤ) < 101 := by
              apply Int.floor_lt.2
              push_cast
              nlinarith [hsc.2]
            omega
        · have h := msm_fail_miss extract classifier question events top rest hl hstrong hfb hcond
          unfold matchSingleMarket
          rw [h]
          exact zero_bounds_record _ rfl rfl
      · rcases hcl : classifier (buildEventList 0 ((top :: rest).take 30)) with _ | r
        · rw [hcl] at hfb
          simp at hfb
        · rw [hcl] at hfb
          have hidx : 0 ≤ r.eventIndex := by
            by_contra hneg
            push_neg at hneg
            exact hfb (by simp [hneg])
          have hconf : (25 : ℚ) ≤ r.confidence := by
            by_contra hneg
            push_neg at hneg
            exact hfb (by simp [hneg])
          obtain ⟨⟨n, hn⟩, h100⟩ := hC r (by rw [hl]; exact hcl)
          rcases hget : ((top :: rest).take 30)[r.eventIndex.toNat]? with _ | mc
          · have h := msm_oob extract classifier question events top rest r hl hstrong hcl
              hidx hconf hget
            unfold matchSingleMarket
            rw [h]
            exact zero_bounds_record _ rfl rfl
          · have h := msm_ai extract classifier question events top rest r mc hl hstrong hcl
              hidx hconf hget
            unfold matchSingleMarket
            rw [h]
            refine ⟨?_, ?_, ⟨n, ?_, ?_, ?_⟩⟩
            · show (0:ℚ) ≤ r.confidence / 100
              apply div_nonneg (by linarith) (by norm_num)
            · show r.confidence / 100 ≤ 1
              rw [div_le_one (by norm_num : (0:ℚ) < 100)]
              linarith
            · show r.confidence = (n : ℚ)
              exact hn
            · have hcast : (0:ℚ) ≤ (n : ℚ) := by
                rw [← hn]
                linarith
              exact_mod_cast hcast
            · have hcast : (n : ℚ) ≤ 100 := by
                rw [← hn]
                exact h100
              exact_mod_cast hcast

/-- Witness for the amended C3 with a soft-failing classifier. -/
theorem matchResult_bounds_witness :
    0 ≤ (matchSingleMarket wExtract1 wClassifierNone "q" wEvents).similarity ∧
    (matchSingleMarket wExtract1 wClassifierNone "q" wEvents).similarity ≤ 1 ∧
    ∃ n : ℤ, (matchSingleMarket wExtract1 wClassifierNone "q" wEvents).confidence = (n : ℚ) ∧
      0 ≤ n ∧ n ≤ 100 :=
  matchResult_bounds wExtract1 wClassifierNone "q" wEvents
    (fun _ h => Option.noConfusion h)

/-- Counterexample to C3 as stated: with a classifier outcome reporting
confidence 150 at a valid index, the AI-accept tier copies the value
verbatim and the resulting confidence exceeds 100. -/
theorem matchResult_bounds_counterexample :
    ¬ ((matchSingleMarket wExtract1 wClassifierHigh "q" wEvents).confidence ≤ 100) := by
  have hne : preFilterEvents wExtract1 "q" wEvents ≠ [] := by decide
  have hl := headI_cons_tail _ hne
  have hnot : ¬(3 ≤ (preFilterEvents wExtract1 "q" wEvents).headI.matchedEntities.length ∧
      (preFilterEvents wExtract1 "q" wEvents).headI.contextCompatible = true) := by decide
  have hclass : wClassifierHigh (buildEventList 0
      (((preFilterEvents wExtract1 "q" wEvents).headI ::
        (preFilterEvents wExtract1 "q" wEvents).tail).take 30)) =
      some { eventIndex := 0, confidence := 150, reasoning := "strong",
             matchedConcepts := some ["a"] } := rfl
  have hget : ((((preFilterEvents wExtract1 "q" wEvents).headI ::
      (preFilterEvents wExtract1 "q" wEvents).tail).take 30))[((0:ℤ)).toNat]? =
      some (preFilterEvents wExtract1 "q" wEvents).headI := rfl
  have h := msm_ai wExtract1 wClassifierHigh "q" wEvents _ _ _ _ hl hnot hclass
    (by decide) (by decide) hget
  unfold matchSingleMarket
  rw [h]
  show ¬ ((150 : ℚ) ≤ 100)
  norm_num


/-! ## Claim C10 -/

/-- C10: on every tier of the decision engine that matches a target event,
the returned result carries the event ticker and title of the matched candidate
and the nested-market ticker selected by `bestTickerOf` from the
corresponding event row; `bestTickerOf` yields `null` (rather than failing)
when the nested-markets JSON is absent or denotes an empty array, prefers a
nested market with status "open" or "active", and falls back to the first
nested market otherwise. -/
theorem matched_event_market_selection (extract : Extractor) (classifier : Classifier)
    (question : String) (events : List KalshiEventRow)
    (hm : (matchSingleMarket extract classifier question events).matchMethod ≠ MatchMethod.none) :
    (∃ cand ∈ preFilterEvents extract question events,
      (matchSingleMarket extract classifier question events).kalshiEventTicker = some cand.eventTicker ∧
      (matchSingleMarket extract classifier question events).kalshiEventTitle = some cand.eventTitle ∧
      (matchSingleMarket extract classifier question events).kalshiMarketTicker =
        bestTickerOf (events.find? (fun e => e.event_ticker == cand.eventTicker))) ∧
    (∀ row : KalshiEventRow, row.markets_json = none ∨ row.markets_json = some [] →
      bestTickerOf (some row) = none) ∧
    bestTickerOf none = none ∧
    (∀ (ms : List NestedMarket) (mk : NestedMarket),
      ms.find? (fun x => x.status == some "open" || x.status == some "active") = some mk →
      chooseBestMarket ms = some mk) ∧
    (∀ ms : List NestedMarket,
      ms.find? (fun x => x.status == some "open" || x.status == some "active") = none →
      chooseBestMarket ms = ms.head?) := by
  refine ⟨?_, ?_, rfl, ?_, ?_⟩
  · -- tier case analysis
    rcases hl : preFilterEvents extract question events with _ | ⟨top, rest⟩
    · have h := msm_nil extract classifier question events hl
      unfold matchSingleMarket at hm
      rw [h] at hm
      exact absurd rfl hm
    · by_cases hstrong : (3 ≤ top.matchedEntities.length ∧ top.contextCompatible = true)
      · have h := msm_strong extract classifier question events top rest hl hstrong.1 hstrong.2
        refine ⟨top, List.mem_cons_self _ _, ?_, ?_, ?_⟩ <;>
          simp only [matchSingleMarket, h]
      · by_cases hfb : (match classifier (buildEventList 0 ((top :: rest).take 30)) with
            | none => true
            | some r => decide (r.eventIndex < 0) || decide (r.confidence < 25)) = true
        · by_cases hcond : ((2/5 : ℚ) ≤ top.entityScore ∧ top.contextCompatible = true)
          · have h := msm_fail_hit extract classifier question events top rest hl hstrong hfb
              hcond.1 hcond.2
            refine ⟨top, List.mem_cons_self _ _, ?_, ?_, ?_⟩ <;>
              simp only [matchSingleMarket, h]
          · have h := msm_fail_miss extract classifier question events top rest hl hstrong hfb hcond
            unfold matchSingleMarket at hm
            rw [h] at hm
            exact absurd rfl hm
        · rcases hcl : classifier (buildEventList 0 ((top :: rest).take 30)) with _ | r
          · rw [hcl] at hfb
            simp at hfb
          · rw [hcl] at hfb
            have hidx : 0 ≤ r.eventIndex := by
              by_contra hneg
              push_neg at hneg
              exact hfb (by simp [hneg])
            have hconf : (25 : ℚ) ≤ r.confidence := by
              by_contra hneg
              push_neg at hneg
              exact hfb (by simp [hneg])
            rcases hget : ((top :: rest).take 30)[r.eventIndex.toNat]? with _ | mc
            · have h := msm_oob extract classifier question events top rest r hl hstrong hcl
                hidx hconf hget
              unfold matchSingleMarket at hm
              rw [h] at hm
              exact absurd rfl hm
            · have h := msm_ai extract classifier question events top rest r mc hl hstrong hcl
                hidx hconf hget
              have hmem : mc ∈ top :: rest :=
                List.mem_of_mem_take (List.getElem?_mem hget)
              refine ⟨mc, hmem, ?_, ?_, ?_⟩ <;> simp only [matchSingleMarket, h]
  · rintro row (hmj | hmj) <;>
      simp [bestTickerOf, chooseBestMarket, hmj]
  · intro ms mk hf
    unfold chooseBestMarket
    rw [hf]
  · intro ms hf
    unfold chooseBestMarket
    rw [hf]

/-- Witness for C10 on a strong-entity match whose event row has a `null`
nested-markets column. -/
theorem matched_event_market_selection_witness :
    (∃ cand ∈ preFilterEvents wExtract3 "q" wEvents,
      (matchSingleMarket wExtract3 wClassifierNone "q" wEvents).kalshiEventTicker = some cand.eventTicker ∧
      (matchSingleMarket wExtract3 wClassifierNone "q" wEvents).kalshiEventTitle = some cand.eventTitle ∧
      (matchSingleMarket wExtract3 wClassifierNone "q" wEvents).kalshiMarketTicker =
        bestTickerOf (wEvents.find? (fun e => e.event_ticker == cand.eventTicker))) ∧
    (∀ row : KalshiEventRow, row.markets_json = none ∨ row.markets_json = some [] →
      bestTickerOf (some row) = none) ∧
    bestTickerOf none = none ∧
    (∀ (ms : List NestedMarket) (mk : NestedMarket),
      ms.find? (fun x => x.status == some "open" || x.status == some "active") = some mk →
      chooseBestMarket ms = some mk) ∧
    (∀ ms : List NestedMarket,
      ms.find? (fun x => x.status == some "open" || x.status == some "active") = none →
      chooseBestMarket ms = ms.head?) :=
  matched_event_market_selection wExtract3 wClassifierNone "q" wEvents (by decide)


/-! ## Claim C9 -/

lemma filter_filter_of_imp {α : Type} (p q : α → Bool)
    (l : List α) (h : ∀ a ∈ l, p a = true → q a = true) :
    (l.filter q).filter p = l.filter p := by
  induction l with
  | nil => rfl
  | cons x xs ih =>
    have ih' := ih (fun a ha => h a (List.mem_cons_of_mem _ ha))
    by_cases hq : q x = true
    · rw [List.filter_cons_of_pos hq]
      by_cases hp : p x = true
      · rw [List.filter_cons_of_pos hp, List.filter_cons_of_pos hp, ih']
      · rw [List.filter_cons_of_neg (by simpa using hp),
          List.filter_cons_of_neg (by simpa using hp), ih']
    · have hp : p x = false := by
        cases hpx : p x with
        | false => rfl
        | true => exact absurd (h x (List.mem_cons_self _ _) hpx) hq
      rw [List.filter_cons_of_neg (by simp [hq]), List.filter_cons_of_neg (by simp [hp]), ih']

/-- C9: `upsertMarketMatch` deletes every row of the source market id
before inserting exactly one new row — leaving exactly one row for that id
and the rows of every other id untouched — and an immediate
`getMarketMatch` with an unexpired TTL returns that row with all stored
fields equal. -/
theorem upsert_replaces_and_roundtrips (db : List MarketMatchRow) (m : StoredMatch)
    (now now2 : ℕ)
    (hfresh : now2 < now + effectiveTtl m.ttlHours * 3600000) :
    ((upsertMarketMatch db m now).filter (fun r => r.polymarket_id == m.polymarketId)).length = 1 ∧
    (∀ q : String, q ≠ m.polymarketId →
      (upsertMarketMatch db m now).filter (fun r => r.polymarket_id == q) =
        db.filter (fun r => r.polymarket_id == q)) ∧
    (∃ row, getMarketMatch (upsertMarketMatch db m now) m.polymarketId now2 = some row ∧
      row.polymarket_id = m.polymarketId ∧
      row.polymarket_question = m.polymarketQuestion ∧
      row.kalshi_event_ticker = m.kalshiEventTicker ∧
      row.kalshi_market_ticker = m.kalshiMarketTicker ∧
      row.kalshi_event_title = m.kalshiEventTitle ∧
      row.similarity = m.similarity ∧
      row.confidence = m.confidence ∧
      row.match_method = m.matchMethod ∧
      row.matched_entities = m.matchedEntities ∧
      row.reasoning = m.reasoning ∧
      row.matched_at = now) := by
  refine ⟨?_, ?_, ?_⟩
  · unfold upsertMarketMatch
    rw [List.filter_append]
    have hold : (db.filter (fun r => decide ¬(r.polymarket_id = m.polymarketId))).filter
        (fun r => r.polymarket_id == m.polymarketId) = [] := by
      rw [List.filter_eq_nil_iff]
      intro a ha
      have hd := List.of_mem_filter ha
      simp only [decide_eq_true_eq] at hd
      simp [hd]
    rw [hold]
    simp [List.filter]
  · intro q hq
    unfold upsertMarketMatch
    rw [List.filter_append]
    have h2 : (List.filter (fun r => r.polymarket_id == q)
        [({ polymarket_id := m.polymarketId, polymarket_question := m.polymarketQuestion,
            kalshi_event_ticker := m.kalshiEventTicker, kalshi_market_ticker := m.kalshiMarketTicker,
            kalshi_event_title := m.kalshiEventTitle, similarity := m.similarity,
            confidence := m.confidence, match_method := m.matchMethod,
            matched_entities := m.matchedEntities, reasoning := m.reasoning,
            matched_at := now,
            expires_at := now + effectiveTtl m.ttlHours * 3600000 } : MarketMatchRow)]) = [] := by
      have hne : (m.polymarketId == q) = false := by
        rw [beq_eq_false_iff_ne]
        exact fun he => hq he.symm
      simp [List.filter, hne]
    rw [h2, List.append_nil]
    apply filter_filter_of_imp
    intro a _ hp
    have ha : a.polymarket_id = q := by
      rw [← beq_iff_eq]
      exact hp
    simp only [decide_eq_true_eq, ha]
    exact hq
  · refine ⟨({ polymarket_id := m.polymarketId, polymarket_question := m.polymarketQuestion,
               kalshi_event_ticker := m.kalshiEventTicker,
               kalshi_market_ticker := m.kalshiMarketTicker,
               kalshi_event_title := m.kalshiEventTitle, similarity := m.similarity,
               confidence := m.confidence, match_method := m.matchMethod,
               matched_entities := m.matchedEntities, reasoning := m.reasoning,
               matched_at := now,
               expires_at := now + effectiveTtl m.ttlHours * 3600000 } : MarketMatchRow), ?_,
      rfl, rfl, rfl, rfl, rfl, rfl, rfl, rfl, rfl, rfl, rfl⟩
    unfold getMarketMatch upsertMarketMatch
    rw [List.filter_append]
    have hold : (db.filter (fun r => decide ¬(r.polymarket_id = m.polymarketId))).filter
        (fun r => r.polymarket_id == m.polymarketId && decide (now2 < r.expires_at)) = [] := by
      rw [List.filter_eq_nil_iff]
      intro a ha
      have hd := List.of_mem_filter ha
      simp only [decide_eq_true_eq] at hd
      simp [hd]
    rw [hold]
    simp [List.filter, hfresh, sortByMatchedAt, insertByMatchedAt]

/-- Witness for C9 on the empty table with the default TTL. -/
theorem upsert_replaces_and_roundtrips_witness :
    (((upsertMarketMatch [] wStored 0).filter
      (fun r => r.polymarket_id == wStored.polymarketId)).length = 1) ∧
    (∀ q : String, q ≠ wStored.polymarketId →
      (upsertMarketMatch [] wStored 0).filter (fun r => r.polymarket_id == q) =
        ([] : List MarketMatchRow).filter (fun r => r.polymarket_id == q)) ∧
    (∃ row, getMarketMatch (upsertMarketMatch [] wStored 0) wStored.polymarketId 0 = some row ∧
      row.polymarket_id = wStored.polymarketId ∧
      row.polymarket_question = wStored.polymarketQuestion ∧
      row.kalshi_event_ticker = wStored.kalshiEventTicker ∧
      row.kalshi_market_ticker = wStored.kalshiMarketTicker ∧
      row.kalshi_event_title = wStored.kalshiEventTitle ∧
      row.similarity = wStored.similarity ∧
      row.confidence = wStored.confidence ∧
      row.match_method = wStored.matchMethod ∧
      row.matched_entities = wStored.matchedEntities ∧
      row.reasoning = wStored.reasoning ∧
      row.matched_at = 0) :=
  upsert_replaces_and_roundtrips [] wStored 0 0 (by decide)

end PulseBackend
